import Mathlib

/-!
Shallow embedding of the Code-Intelligence Engine of the personal-dev-assistant
repository: the heuristic Signal Collector (`mcp_server/raw_signal.py`), the
filesystem tools and the bounded orchestration loop (`mcp_server/server.py`).

Python strings are modelled as Lean `String`, Python lists as Lean `List`,
Python dicts as insertion-ordered association lists with last-writer-wins
updates, and raising/propagating exceptions as `Except String`.  Filesystem
walks (`Path.rglob`) are modelled by an explicit list of files given in walk
order; file paths are the relative path strings the code itself reports.
All definitions are executable and recurse structurally so that concrete
runs evaluate inside the kernel.
-/

namespace PDA

/-! ### Python string primitives used by the code -/

/-- The whitespace characters recognised by Python `str.strip` / `\s`
(space, tab, newline, carriage return, vertical tab, form feed). -/
def isPySpace (c : Char) : Bool :=
  c = ' ' || c = '\t' || c = '\n' || c = '\r' || c.toNat = 11 || c.toNat = 12

/-- First character class of the regex `[A-Za-z_]`. -/
def isIdentStart (c : Char) : Bool :=
  ('A' ≤ c && c ≤ 'Z') || ('a' ≤ c && c ≤ 'z') || c = '_'

/-- Character class of the regex `[A-Za-z0-9_]`. -/
def isIdentChar (c : Char) : Bool :=
  isIdentStart c || ('0' ≤ c && c ≤ '9')

/-- Python `str.strip()`: drop whitespace from both ends. -/
def pyStrip (s : String) : String :=
  (((s.data.dropWhile isPySpace).reverse.dropWhile isPySpace).reverse).asString

/-- Python `str.rstrip()`: drop whitespace from the right end. -/
def pyRStrip (s : String) : String :=
  ((s.data.reverse.dropWhile isPySpace).reverse).asString

/-- Test whether `needle` occurs as a contiguous run inside `hay` (Python `in` on strings). -/
def listContainsRun (needle : List Char) : List Char → Bool
  | [] => needle.isEmpty
  | c :: cs => needle.isPrefixOf (c :: cs) || listContainsRun needle cs

/-- Python `needle in hay` for strings. -/
def strContains (hay needle : String) : Bool :=
  listContainsRun needle.data hay.data

/-- Python `hay.startswith(pre)`. -/
def strStartsWith (hay pre : String) : Bool :=
  pre.data.isPrefixOf hay.data

/-- Python `str.lower()` restricted to ASCII, as `Path.suffix.lower()` uses it. -/
def strToLower (s : String) : String :=
  (s.data.map Char.toLower).asString

/-- Worker for `pyIdentTokens`: scans the characters, building the current
identifier run (if any) in `acc` (reversed). -/
def identTokensAux : List Char → Option (List Char) → List String
  | [], none => []
  | [], some acc => [acc.reverse.asString]
  | c :: cs, none =>
      if isIdentStart c then identTokensAux cs (some [c])
      else identTokensAux cs none
  | c :: cs, some acc =>
      if isIdentChar c then identTokensAux cs (some (c :: acc))
      else acc.reverse.asString :: identTokensAux cs none

/-- Python `re.findall(r"[A-Za-z_][A-Za-z0-9_]*", s)`: every maximal
identifier run whose first character is a letter or underscore. -/
def pyIdentTokens (s : String) : List String :=
  identTokensAux s.data none

/-- Worker for `pySplit`; `fuel` starts at the string length, which bounds the
number of steps since the (non-empty) separator consumes at least one
character whenever it matches. -/
def pySplitGo (sep : List Char) : Nat → List Char → List Char → List (List Char)
  | 0, rest, acc => [acc.reverse ++ rest]
  | _ + 1, [], acc => [acc.reverse]
  | fuel + 1, c :: cs, acc =>
      if sep.isPrefixOf (c :: cs) then
        acc.reverse :: pySplitGo sep fuel ((c :: cs).drop sep.length) []
      else
        pySplitGo sep fuel cs (c :: acc)

/-- Python `s.split(sep)` for a non-empty separator: non-overlapping,
left-to-right splitting; always returns at least one part. -/
def pySplit (s sep : String) : List String :=
  (pySplitGo sep.data (s.data.length + 1) s.data []).map List.asString

/-- Split a list of characters at every occurrence of one character. -/
def splitOnCharAux (sep : Char) : List Char → List Char → List (List Char)
  | [], acc => [acc.reverse]
  | c :: cs, acc =>
      if c = sep then acc.reverse :: splitOnCharAux sep cs []
      else splitOnCharAux sep cs (c :: acc)

/-- The components of a path string, as in `pathlib.Path.parts` for a
relative path (empty segments are dropped). -/
def pathParts (p : String) : List String :=
  ((splitOnCharAux '/' p.data []).filter (fun seg => !seg.isEmpty)).map List.asString

/-- The `pathlib` suffix of a file name: from the last dot of the final
component, empty when the dot is the first or the last character. -/
def pathSuffix (p : String) : String :=
  let base := (splitOnCharAux '/' p.data []).getLastD []
  let revTail := base.reverse.takeWhile (fun c => !(c = '.'))
  if revTail.length = base.length then ""
  else
    let i := base.length - revTail.length - 1
    if 0 < i && i < base.length - 1 then (base.drop i).asString else ""

/-! ### The workspace filesystem and the `search_code` tool (`server.py`)

A subtree is modelled as the list of files that `Path.rglob("*")` yields, in
walk order; directory entries are omitted (they are skipped by the
`is_file()` test in every walk of the code).  Each file carries its path
relative to the workspace root (the string the code reports in results), its
`stat().st_size`, and its text lines.  The base-path resolution and the
access/existence checks on the search path are not modelled: the collectors
under verification always pass a valid relative subtree, and the claims do
not touch that branch. -/

structure SrcFile where
  path : String
  size : Nat
  lines : List String
deriving Repr, DecidableEq

def FileSys : Type := List SrcFile

structure SearchHit where
  file : String
  line : Nat
  snippet : String
deriving Repr, DecidableEq

def BINARY_EXTENSIONS : List String :=
  [".pdf", ".png", ".jpg", ".jpeg", ".gif",
   ".zip", ".tar", ".gz", ".exe", ".dll",
   ".docx", ".pptx", ".xlsx"]

/-- The `EXCLUDED_DIRS` set of `server.py` (matched against path components). -/
def SERVER_EXCLUDED_DIRS : List String :=
  ["node_modules", ".venv", "venv", "__pycache__", ".git", ".cache",
   "dist", "build", "target", "out", "coverage", ".idea", ".vscode"]

def MAX_FILE_SIZE : Nat := 300000
def MAX_FILES_SCANNED : Nat := 300
def MAX_LINES_READ : Nat := 100

/-- The check `any(part in EXCLUDED_DIRS for part in fp.parts)` of `search_code`. -/
def isServerExcluded (p : String) : Bool :=
  (pathParts p).any (fun part => SERVER_EXCLUDED_DIRS.contains part)

/-- The inner line loop of `search_code`: emit a hit for every line containing
one of the tokens, stopping once the running result count reaches
`max_results` (`remaining` is `max_results - len(res)` on entry, ≥ 1). -/
def scanLines (tokens : List String) (path : String) :
    List String → Nat → Nat → List SearchHit
  | [], _, _ => []
  | l :: ls, n, remaining =>
      if tokens.any (fun t => strContains l t) then
        let hit : SearchHit := ⟨path, n, pyStrip l⟩
        if remaining ≤ 1 then [hit]
        else hit :: scanLines tokens path ls (n + 1) (remaining - 1)
      else scanLines tokens path ls (n + 1) remaining

/-- The file loop of `search_code`: `fsCount` files scanned so far,
`resCount` results collected so far, with the breaks and skips in the order
the code performs them. -/
def searchGo (tokens : List String) (maxRes : Nat) :
    List SrcFile → Nat → Nat → List SearchHit
  | [], _, _ => []
  | f :: rest, fsCount, resCount =>
      if MAX_FILES_SCANNED ≤ fsCount then []
      else if isServerExcluded f.path then searchGo tokens maxRes rest fsCount resCount
      else if maxRes ≤ resCount then []
      else if BINARY_EXTENSIONS.contains (strToLower (pathSuffix f.path)) then
        searchGo tokens maxRes rest fsCount resCount
      else if MAX_FILE_SIZE < f.size then searchGo tokens maxRes rest fsCount resCount
      else
        let hits := scanLines tokens f.path f.lines 1 (maxRes - resCount)
        hits ++ searchGo tokens maxRes rest (fsCount + 1) (resCount + hits.length)

/-- Model of `search_code(query, path, max_results)` of `server.py`.  The query is
reduced to its identifier tokens of length > 2 (the `re.sub` on the line
above the tokenisation discards its result in the code and is a no-op); a
query without such tokens raises.  Python collects the tokens in a `set`,
whose iteration order only affects the unconsumed `matched_tokens` field,
so hits carry `file`, `line` and the stripped `snippet`. -/
def search_code (fs : FileSys) (query : String) (max_results : Nat := 50) :
    Except String (List SearchHit) :=
  let tokens := ((pyIdentTokens query).filter (fun t => 2 < t.length)).dedup
  if tokens.isEmpty then .error "Query does not contain searchable tokens"
  else .ok (searchGo tokens max_results fs 0 0)

/-! ### The Signal Collector (`raw_signal.py`)

The collectors receive the search primitive as `search_fn`; in the embedding
it is a function from the query string to the search outcome, with the base
path (constant across one collection) already applied.  Raising is
`Except.error`. -/

structure Defn where
  file : String
  line : Nat
deriving Repr, DecidableEq

structure Unused where
  symbol : String
  defined_in : Defn
deriving Repr, DecidableEq

structure TryBlock where
  file : String
  line : Nat
deriving Repr, DecidableEq

structure Signals where
  inside_loop : Bool
  async_context : Bool
deriving Repr, DecidableEq

structure ExpensiveOp where
  file : String
  line : Nat
  method : String
  signals : Signals
deriving Repr, DecidableEq

structure SignalReport where
  definitions : List (String × Defn)
  usages : List (String × List String)
  unused : List Unused
  external_calls : List SearchHit
  try_blocks : List TryBlock
  expensive_ops : List ExpensiveOp
deriving Repr, DecidableEq

/-- Model of `is_third_party`: the path contains one of the dependency markers. -/
def is_third_party (path : String) : Bool :=
  ["site-packages", ".venv", "venv", "node_modules", "dist", "build"].any
    (fun part => strContains path part)

/-- Python dict assignment `d[k] = v`: overwrite in place when the key is
present (keeping its position), append otherwise. -/
def dictInsert {α : Type} (d : List (String × α)) (k : String) (v : α) :
    List (String × α) :=
  if d.any (fun p => p.1 = k) then
    d.map (fun p => if p.1 = k then (k, v) else p)
  else d ++ [(k, v)]

/-- Name extraction of `collect_definitions` for one snippet and one marker
keyword: `line.split(kw)`, require at least two parts, then
`parts[1].split("(")[0].strip()`; an empty name is discarded.  The guarded
`IndexError`/`AttributeError` cannot occur on this expression, so the
`except` branch is dead code.  Returns `none` when the code `continue`s. -/
def extractName (kw snippet : String) : Option String :=
  match pySplit snippet kw with
  | _ :: second :: _ =>
      let name := pyStrip ((pySplit second "(").headD "")
      if name = "" then none else some name
  | _ => none

/-- The inner result loop of `collect_definitions` for one keyword. -/
def addDefs (kw : String) (results : List SearchHit)
    (defs : List (String × Defn)) : List (String × Defn) :=
  results.foldl
    (fun d r =>
      if is_third_party r.file then d
      else
        match extractName kw r.snippet with
        | some name => dictInsert d name ⟨r.file, r.line⟩
        | none => d)
    defs

/-- Model of `collect_definitions`: one search per marker keyword, names harvested
last-writer-wins. -/
def collect_definitions (search_fn : String → Except String (List SearchHit)) :
    Except String (List (String × Defn)) := do
  let r1 ← search_fn "def "
  let r2 ← search_fn "class "
  .ok (addDefs "class " r2 (addDefs "def " r1 []))

/-- The per-definition loop of `collect_usages`: for each discovered name, in
discovery order, search `"<name>("` and keep the files of the hits whose line
number differs from the recorded definition line.  The keys of `definitions`
are pairwise distinct (Python dict), so filling the pre-initialised dict
entry is the same as emitting the pair directly. -/
def usagesLoop (search_fn : String → Except String (List SearchHit)) :
    List (String × Defn) → Except String (List (String × List String))
  | [] => .ok []
  | (name, d) :: rest => do
      let results ← search_fn (name ++ "(")
      let files := (results.filter (fun r => r.line ≠ d.line)).map SearchHit.file
      let tail ← usagesLoop search_fn rest
      .ok ((name, files) :: tail)

/-- The final loop of `collect_usages`: every symbol whose usage list is
empty, paired with `definitions[name]`. -/
def buildUnused (definitions : List (String × Defn))
    (usages : List (String × List String)) : List Unused :=
  (usages.filter (fun p => p.2.isEmpty)).filterMap
    (fun p => (List.lookup p.1 definitions).map (fun d => ⟨p.1, d⟩))

/-- Model of `collect_usages(search_fn, definitions, base_path)`. -/
def collect_usages (search_fn : String → Except String (List SearchHit))
    (definitions : List (String × Defn)) :
    Except String (List (String × List String) × List Unused) := do
  let usages ← usagesLoop search_fn definitions
  .ok (usages, buildUnused definitions usages)

def EXTERNAL_PATTERNS : List String :=
  ["open(", "requests.", "subprocess.", "os.system("]

/-- Model of `collect_external_calls`: one search per pattern, every hit recorded
verbatim (the code copies exactly the `file`/`line`/`snippet` fields). -/
def collect_external_calls (search_fn : String → Except String (List SearchHit)) :
    Except String (List SearchHit) := do
  let r1 ← search_fn "open("
  let r2 ← search_fn "requests."
  let r3 ← search_fn "subprocess."
  let r4 ← search_fn "os.system("
  .ok (r1 ++ r2 ++ r3 ++ r4)

/-- Model of `collect_try_blocks`: search the fixed token `"try:"`, keep file and line. -/
def collect_try_blocks (search_fn : String → Except String (List SearchHit)) :
    Except String (List TryBlock) := do
  let results ← search_fn "try:"
  .ok (results.map (fun r => ⟨r.file, r.line⟩))

def EXPENSIVE_METHOD_HINTS : List String :=
  ["fit", "train", "compile", "optimize",
   "predict", "infer", "evaluate",
   "load", "save",
   "from_pretrained", "deserialize",
   "build", "initialize"]

def LOOP_HINTS : List String := ["for ", "while "]
def ASYNC_HINTS : List String := ["async def", "await "]

def ALLOWED_EXTENSIONS : List String :=
  [".py", ".pyw", ".pyi", ".js", ".jsx", ".ts", ".tsx", ".mjs", ".cjs",
   ".java", ".kt", ".kts", ".scala", ".groovy", ".c", ".h", ".cpp",
   ".cc", ".cxx", ".hpp", ".hxx", ".cs", ".fs", ".fsx", ".vb", ".go", ".rs",
   ".rb", ".php", ".swift", ".m", ".mm", ".r", ".R", ".dart", ".lua",
   ".ex", ".exs", ".erl", ".hs"]

/-- The `EXCLUDED_DIRS` set of `raw_signal.py` (a superset of the server's list),
matched as plain substrings of the whole normalised path. -/
def RAW_EXCLUDED_DIRS : List String :=
  ["node_modules", ".venv", "venv", "__pycache__", ".git", ".cache",
   "dist", "build", "target", "out", "coverage", ".idea", ".vscode",
   "site-packages", "Lib", "Scripts", "bin", "Include"]

structure SourceRow where
  file : String
  line : Nat
  text : String
deriving Repr, DecidableEq

/-- Model of `iter_source_lines`: walk every file, skip paths containing an excluded
segment as substring, skip binary and non-allowed extensions, and yield each
line right-stripped with its 1-based number.  Per-file read errors are
swallowed (`except Exception: continue`), so in the embedding each listed
file simply yields its lines. -/
def iter_source_lines (fs : FileSys) : List SourceRow :=
  fs.foldr
    (fun f acc =>
      if RAW_EXCLUDED_DIRS.any (fun seg => strContains f.path seg) then acc
      else if BINARY_EXTENSIONS.contains (strToLower (pathSuffix f.path)) then acc
      else if !(ALLOWED_EXTENSIONS.contains (strToLower (pathSuffix f.path))) then acc
      else (List.enumFrom 1 f.lines).map (fun li => ⟨f.path, li.1, pyRStrip li.2⟩) ++ acc)
    []

/-- Group 1 of the first match of `re.search(r"([A-Za-z_][A-Za-z0-9_]*)\s*\(", line)`:
scanning left to right, the first maximal identifier run followed by optional
whitespace and an opening parenthesis.  (A shorter prefix of a run can never
match, because the character after it is an identifier character, which is
neither whitespace nor `(` — so taking the maximal run is exact.) -/
def findCallMethod : List Char → Option String
  | [] => none
  | c :: cs =>
      if isIdentStart c then
        let runRest := cs.takeWhile isIdentChar
        let after := (cs.drop runRest.length).dropWhile isPySpace
        match after with
        | '(' :: _ => some (c :: runRest).asString
        | _ => findCallMethod cs
      else findCallMethod cs

/-- Model of `collect_expensive_ops`: direct line iteration, first called identifier of
each line, kept when it is an expensive-method hint; the two boolean signals
are substring presence of the loop / async keywords on the same physical
line. -/
def collect_expensive_ops (fs : FileSys) : List ExpensiveOp :=
  (iter_source_lines fs).filterMap
    (fun row =>
      match findCallMethod row.text.data with
      | none => none
      | some method =>
          if EXPENSIVE_METHOD_HINTS.contains method then
            some ⟨row.file, row.line, method,
                  ⟨LOOP_HINTS.any (fun h => strContains row.text h),
                   ASYNC_HINTS.any (fun h => strContains row.text h)⟩⟩
          else none)

/-- Model of `collect_signals(search_fn, base_path)`: the aggregate report.  The same
subtree is seen by `search_fn` (for the search-driven collectors) and as
`fs` (for the direct iteration of `collect_expensive_ops`). -/
def collect_signals (search_fn : String → Except String (List SearchHit))
    (fs : FileSys) : Except String SignalReport := do
  let defs ← collect_definitions search_fn
  let (uses, unused) ← collect_usages search_fn defs
  let ext ← collect_external_calls search_fn
  let tb ← collect_try_blocks search_fn
  .ok ⟨defs, uses, unused, ext, tb, collect_expensive_ops fs⟩

def SYSTEM_PROMPT : String :=
  String.intercalate "\n"
    [
     "",
     "You are a Codebase Understanding Assistant.",
     "",
     "Your goal is to help users understand unfamiliar or existing software projects accurately and efficiently.",
     "This includes personal projects, cloned repositories, and open-source codebases.",
     "",
     "You focus on project-level reasoning: structure, execution flow, intent, and relationships between files.",
     "You are not an IDE autocomplete tool and do not optimize or refactor code unless explicitly asked.",
     "",
     "You have access to tools that expose the project filesystem and structure.",
     "",
     "You MUST prefer using tools over guessing.",
     "If information is not explicitly available via tools, say that you do not know instead of hallucinating.",
     "",
     "Follow these patterns when answering questions:",
     "",
     "1. To understand the project as a whole:",
     "   - Call summarize_project first.",
     "",
     "2. To locate definitions, usages, or symbols:",
     "   - Call search_code.",
     "   - Then call read_file on relevant files.",
     "",
     "3. To understand execution or startup flow:",
     "   - Call find_entry_points.",
     "   - Then inspect the identified files.",
     "",
     "4. Never assume file contents or behavior without reading the file.",
     "",
     "Treat files located in virtual environments, dependency folders, or third-party libraries",
     "(e.g. .venv, venv, site-packages, Lib, node_modules)",
     "as non-project code unless the user explicitly asks about dependencies.",
     "",
     "Prioritize user-authored project files when reasoning.",
     "",
     "Tool outputs may contain multiple candidates or partial information.",
     "",
     "You should:",
     "- Interpret file paths semantically.",
     "- Prefer shallow project paths over deep dependency paths.",
     "- Use follow-up tool calls when clarification is required.",
     "",
     "If the available information is insufficient:",
     "- Ask a clarifying question, OR",
     "- Explicitly state what information is missing.",
     "",
     "Never fabricate project structure, behavior, or intent.",
     "",
     "If precomputed analysis signals are provided:",
     "- Treat them as complete and authoritative",
     "- Do NOT attempt to rescan the codebase",
     "- Do NOT request additional tools",
     "",
     "When responding:",
     "- Be clear and structured.",
     "- Reference file paths when explaining behavior.",
     "- Explain intent and flow, not just syntax.",
     "- Avoid unnecessary verbosity.",
     "",
     "Do NOT:",
     "- Assume how the project works without inspecting files.",
     "- Rewrite or refactor code unless explicitly asked.",
     "- Treat search results as complete context.",
     "- Explain dependency internals unless requested.",
     "",
     ""]

/-! ### `read_file` and path containment (`server.py`)

`read_file` resolves `WORKSPACE_ROOT / path` and gates access with a plain
string-prefix test `str(file_path).startswith(str(WORKSPACE_ROOT))`.  Paths
are modelled as strings; the filesystem visible to `read_file` is a list of
(resolved absolute path, content) files plus a list of resolved directory
paths.  Errors are the code's `ValueError` cases as a taxonomy; the final
`Failed to read file` re-raise has no counterpart because reads of listed
files succeed in the model. -/

inductive RFErr
  | accessDenied
  | notFound (path : String)
  | notAFile (path : String)
  | unsupported (suffix : String)
deriving Repr, DecidableEq

structure WorkFS where
  files : List (String × String)
  dirs : List String
deriving Repr, DecidableEq

/-- The `pathlib` slash operator: an absolute right operand replaces the left. -/
def pathJoin (root path : String) : String :=
  if strStartsWith path "/" then path else root ++ "/" ++ path

/-- Worker for `resolvePath`: process components, `..` pops (and is a no-op
at the root, as in POSIX resolution), `.` and empty components vanish. -/
def resolveParts : List String → List String → List String
  | [], acc => acc.reverse
  | p :: rest, acc =>
      if p = "" ∨ p = "." then resolveParts rest acc
      else if p = ".." then resolveParts rest (acc.drop 1)
      else resolveParts rest (p :: acc)

def joinParts : List String → String
  | [] => ""
  | [p] => p
  | p :: rest => p ++ "/" ++ joinParts rest

/-- Model of `Path.resolve()` on an absolute path string (symlinks are out of scope:
the model workspace has none). -/
def resolvePath (s : String) : String :=
  "/" ++ joinParts (resolveParts ((splitOnCharAux '/' s.data []).map List.asString) [])

def fileContent (fs : WorkFS) (p : String) : Option String :=
  List.lookup p fs.files

def pathExists (fs : WorkFS) (p : String) : Bool :=
  (fileContent fs p).isSome || fs.dirs.contains p

/-- Model of `read_file(path)` of `server.py`, with its checks in source order. -/
def read_file (fs : WorkFS) (root path : String) : Except RFErr String :=
  let file_path := resolvePath (pathJoin root path)
  if !(strStartsWith file_path root) then .error .accessDenied
  else if !(pathExists fs file_path) then .error (.notFound path)
  else
    match fileContent fs file_path with
    | none => .error (.notAFile path)
    | some content =>
        if BINARY_EXTENSIONS.contains (strToLower (pathSuffix file_path)) then
          .error (.unsupported (pathSuffix file_path))
        else .ok content

/-- The spec's notion of a path lying inside the workspace root: it is the
root itself or a descendant of it.  (Stated from the spec's words, to compare
with the string-prefix test the code performs.) -/
def resolvesInsideRoot (p root : String) : Bool :=
  p = root || strStartsWith p (root ++ "/")

/-! ### `summarize_project` (`server.py`)

The workspace is modelled by its name, its root directory listing in
`iterdir` order (entry name, is-directory flag), and its full `rglob` walk
(path, is-file flag).  The code computes `project_name`, `items`,
`key_files` and `extensions`, and then executes
`entry_points = find_entry_points()` — a call of the decorated async
function with neither `await` nor its required `ctx` parameter, which raises
`TypeError` before the result dict is built. -/

structure Workspace where
  name : String
  rootEntries : List (String × Bool)
  allEntries : List (String × Bool)
deriving Repr, DecidableEq

structure Summary where
  project_name : String
  top_level_structure : List String
  key_files : List String
  file_extensions : List String
  entry_points : List (String × String)
deriving Repr, DecidableEq

def KEY_FILE_NAMES : List String :=
  ["README.md", "README.txt", "pyproject.toml", "requirements.txt",
   "package.json", "pom.xml", "build.gradle", "Makefile"]

/-- A single apostrophe, used in the error strings the code formats. -/
def sq : String := String.singleton (Char.ofNat 39)

/-- The extension-collection loop: add the lowered suffix of each file that
has one, stopping once ten distinct extensions are collected (the break
tests the set size after each entry). -/
def collectExts : List (String × Bool) → List String → List String
  | [], acc => acc
  | (p, isf) :: rest, acc =>
      let acc2 :=
        if isf && !(pathSuffix p = "") then
          let e := strToLower (pathSuffix p)
          if acc.contains e then acc else acc ++ [e]
        else acc
      if 10 ≤ acc2.length then acc2 else collectExts rest acc2

def summarizeTypeError : String :=
  "TypeError: find_entry_points() missing 1 required positional argument: "
    ++ sq ++ "ctx" ++ sq

/-- Model of `summarize_project()` of `server.py`.  The first four fields are computed
as in the source; the assignment `entry_points = find_entry_points()` then
raises `TypeError` (the function requires `ctx` and is never awaited), so
the function never reaches its `return`. -/
def summarize_project (ws : Workspace) : Except String Summary :=
  let _project_name := ws.name
  let _items := ws.rootEntries.filterMap
    (fun e => if strStartsWith e.1 "." then none
              else some (e.1 ++ (if e.2 then "/" else "")))
  let _key_files := KEY_FILE_NAMES.filter
    (fun n => ws.rootEntries.any (fun e => e.1 = n))
  let _extensions := collectExts ws.allEntries []
  .error summarizeTypeError

/-! ### The orchestration loop `query` (`server.py`)

The reasoning service is a function from the advertised tool list and the
conversation to one assistant turn; `json.loads` and the registry dispatch
`mcp.call_tool` are collaborator parameters (`json_loads`, `call_tool`),
with raising modelled as `Except.error`.  Crucially, in the source
`args = json.loads(call.function.arguments)` sits OUTSIDE the
`try/except` that guards `mcp.call_tool`, and the model keeps that shape. -/

structure ToolCall where
  id : String
  name : String
  arguments : String
deriving Repr, DecidableEq

/-- One turn of the reasoning service: `message.content` and
`message.tool_calls` (absent modelled as `[]`, as Python tests falsiness). -/
structure LLMMsg where
  content : Option String
  tool_calls : List ToolCall
deriving Repr, DecidableEq

inductive Role
  | system
  | user
  | assistant
  | tool
deriving Repr, DecidableEq

structure Message where
  role : Role
  content : Option String
  tool_call_id : Option String := none
  tool_calls : List ToolCall := []
deriving Repr, DecidableEq

structure ToolSchema where
  name : String
  description : String
  parameters : String
deriving Repr, DecidableEq

/-- A Tool Registry entry as `mcp.list_tools()` returns it (the parameter
schema is carried opaquely as its serialised form). -/
structure MCPTool where
  name : String
  description : Option String
  inputSchema : String
deriving Repr, DecidableEq

/-- The tool-schema construction at the top of `query`: every registry tool
except the one named `"query"` (`continue  # never expose itself`). -/
def advertisedTools (registry : List MCPTool) : List ToolSchema :=
  (registry.filter (fun t => !(t.name = "query"))).map
    (fun t => ⟨t.name, t.description.getD "", t.inputSchema⟩)

/-- Python `a or b` for an optional string (`None` and `""` are falsy). -/
def pyOr (c : Option String) (dflt : String) : String :=
  match c with
  | none => dflt
  | some s => if s = "" then dflt else s

/-- The text `f"Error calling tool '…': …"` built by the except branch. -/
def errText (toolName err : String) : String :=
  "Error calling tool " ++ sq ++ toolName ++ sq ++ ": " ++ err

/-- The per-invocation dispatch loop of one step: `json.loads` the argument
string (NOT guarded — its error propagates), then call the tool with the
`except Exception` guard turning a raise into the error text, and append one
tool-role message per invocation, correlated by `call.id`. -/
def dispatchCalls {α : Type} (json_loads : String → Except String α)
    (call_tool : String → α → Except String String) :
    List ToolCall → Except String (List Message)
  | [] => .ok []
  | c :: rest => do
      let args ← json_loads c.arguments
      let result : String :=
        match call_tool c.name args with
        | .ok r => r
        | .error e => errText c.name e
      let tail ← dispatchCalls json_loads call_tool rest
      .ok (⟨Role.tool, some result, some c.id, []⟩ :: tail)

def MAX_STEPS : Nat := 20

def stepLimitAnswer : String :=
  "I could not fully answer the question within the allowed reasoning steps."

/-- The `for step in range(MAX_STEPS)` loop of `query`, with the remaining
budget as fuel.  The second component counts the reasoning-service calls the
run makes.  A turn without tool calls returns `msg.content or "No answer
generated."`; otherwise the assistant message and the tool messages are
folded into the conversation and the loop continues; an unguarded
`json.loads` failure propagates; a completed range returns the fixed
step-limit response. -/
def queryLoop {α : Type} (llm : List ToolSchema → List Message → LLMMsg)
    (json_loads : String → Except String α)
    (call_tool : String → α → Except String String)
    (schemas : List ToolSchema) :
    List Message → Nat → Except String String × Nat
  | _, 0 => (.ok stepLimitAnswer, 0)
  | msgs, fuel + 1 =>
      let resp := llm schemas msgs
      if resp.tool_calls = [] then (.ok (pyOr resp.content "No answer generated."), 1)
      else
        match dispatchCalls json_loads call_tool resp.tool_calls with
        | .error e => (.error e, 1)
        | .ok toolMsgs =>
            let next := queryLoop llm json_loads call_tool schemas
              (msgs ++ ⟨Role.assistant, resp.content, none, resp.tool_calls⟩ :: toolMsgs)
              fuel
            (next.1, next.2 + 1)

/-- Model of `query(question)` of `server.py`: build the advertised tool list once
(excluding itself), seed the conversation with the system prompt and the
user question, and run at most `MAX_STEPS` reasoning steps. -/
def query {α : Type} (registry : List MCPTool)
    (llm : List ToolSchema → List Message → LLMMsg)
    (json_loads : String → Except String α)
    (call_tool : String → α → Except String String)
    (question : String) : Except String String × Nat :=
  queryLoop llm json_loads call_tool (advertisedTools registry)
    [⟨Role.system, some SYSTEM_PROMPT, none, []⟩,
     ⟨Role.user, some question, none, []⟩]
    MAX_STEPS

/-! ### Concrete fixtures used by the theorems below -/

/-- A subtree with a single short-named definition `def f():`. -/
def fsShortName : FileSys := [⟨"m.py", 20, ["def f():", "    pass"]⟩]

/-- A subtree with `model.fit(x, y)` inside the body of a `for` loop whose
header is on the previous physical line. -/
def fsLoopFit : FileSys :=
  [⟨"train.py", 50, ["for i in range(10):", "    model.fit(x, y)"]⟩]

/-- A subtree with `def foo():` at `a.py:1` and a call `foo()` only at
`b.py:5`. -/
def fsFooDef : FileSys :=
  [⟨"a.py", 11, ["def foo():"]⟩, ⟨"b.py", 10, ["", "", "", "", "foo()"]⟩]

/-- A subtree with `def bar():` at `a.py:3` and no other occurrence of
`bar(`. -/
def fsBarUnused : FileSys := [⟨"a.py", 30, ["", "", "def bar():"]⟩]

/-- The report `collect_signals` produces on `fsBarUnused`. -/
def reportBar : SignalReport :=
  ⟨[("bar", ⟨"a.py", 3⟩)], [("bar", [])],
   [⟨"bar", ⟨"a.py", 3⟩⟩], [], [], []⟩

/-- A search primitive that always succeeds with no hits. -/
def searchNoHits : String → Except String (List SearchHit) := fun _ => .ok []

/-- A read_file-visible filesystem: workspace root `/ws` and a sibling
directory `/ws2` holding a file, both resolved absolute paths. -/
def rwFs : WorkFS := ⟨[("/ws2/secret.txt", "data")], ["/ws", "/ws2"]⟩

/-- A registry holding the orchestration tool and one ordinary tool. -/
def registryBoth : List MCPTool :=
  [⟨"query", some "Orchestrate codebase analysis tasks", "schema_query"⟩,
   ⟨"read_file", some "Read the contents of a text file", "schema_read_file"⟩]

/-- A reasoning service that requests the same single tool call on every
turn and never produces a direct answer. -/
def llmAlwaysCalls : List ToolSchema → List Message → LLMMsg :=
  fun _ _ => ⟨none, [⟨"1", "project_tree", "\x7b\x7d"⟩]⟩

/-- A reasoning service whose first turn requests a call whose argument
string is not JSON. -/
def llmBadArgs : List ToolSchema → List Message → LLMMsg :=
  fun _ _ => ⟨none, [⟨"call_1", "read_file", "not json"⟩]⟩

/-- An argument parser that accepts every argument string. -/
def jlOkUnit : String → Except String Unit := fun _ => .ok ()

/-- A model of `json.loads` on the argument strings of this development: it
parses the empty JSON object and rejects non-JSON text with the message
`json.loads` raises on it. -/
def jlStrict : String → Except String Unit :=
  fun s =>
    if s = "\x7b\x7d" then .ok ()
    else .error "Expecting value: line 1 column 1 (char 0)"

/-- A tool dispatcher whose handlers always succeed. -/
def ctOk : String → Unit → Except String String := fun _ _ => .ok "ok"

/-- A tool dispatcher whose handlers always raise. -/
def ctBoom : String → Unit → Except String String := fun _ _ => .error "boom"

/-! ### Helper lemmas -/

theorem except_ok_bind {ε α β : Type} (a : α) (f : α → Except ε β) :
    (Except.ok a >>= f) = f a := rfl

theorem except_error_bind {ε α β : Type} (e : ε) (f : α → Except ε β) :
    ((Except.error e : Except ε α) >>= f) = Except.error e := rfl

/-! ### Claim C1: does `collect_signals` ever raise? -/

/-- C1 (counterexample): with the repository's own `search_code` as the
search function, a subtree whose only definition is the short-named
`def f():` makes `collect_signals` raise — `collect_usages` issues the
query `f(`, which `search_code` rejects because it has no token longer
than two characters, and nothing catches the error. -/
theorem c1_counterexample :
    collect_signals (fun q => search_code fsShortName q) fsShortName =
      .error "Query does not contain searchable tokens" := by
  rfl

/-- C1 (amended): `collect_signals` returns a `SignalReport` provided every
call of the search function returns normally; the sub-collectors' own
extraction and file-iteration steps never raise, but an error raised by the
search function itself propagates. -/
theorem c1_amended (search_fn : String → Except String (List SearchHit))
    (fs : FileSys) (h : ∀ q, ∃ rs, search_fn q = .ok rs) :
    ∃ r, collect_signals search_fn fs = .ok r := by
  obtain ⟨r1, h1⟩ := h "def "
  obtain ⟨r2, h2⟩ := h "class "
  have hdefs : collect_definitions search_fn =
      .ok (addDefs "class " r2 (addDefs "def " r1 [])) := by
    simp only [collect_definitions, h1, h2]
    rfl
  have husages : ∀ defs : List (String × Defn),
      ∃ us, usagesLoop search_fn defs = .ok us := by
    intro defs
    induction defs with
    | nil => exact ⟨[], rfl⟩
    | cons p rest ih =>
        obtain ⟨rs, hrs⟩ := h (p.1 ++ "(")
        obtain ⟨tail, htail⟩ := ih
        exact ⟨_, by simp only [usagesLoop, hrs, htail]; rfl⟩
  obtain ⟨us, hus⟩ := husages (addDefs "class " r2 (addDefs "def " r1 []))
  obtain ⟨e1, he1⟩ := h "open("
  obtain ⟨e2, he2⟩ := h "requests."
  obtain ⟨e3, he3⟩ := h "subprocess."
  obtain ⟨e4, he4⟩ := h "os.system("
  obtain ⟨tb, htb⟩ := h "try:"
  have hcu : collect_usages search_fn (addDefs "class " r2 (addDefs "def " r1 [])) =
      .ok (us, buildUnused (addDefs "class " r2 (addDefs "def " r1 [])) us) := by
    simp only [collect_usages, hus]
    rfl
  have hec : collect_external_calls search_fn = .ok (e1 ++ e2 ++ e3 ++ e4) := by
    simp only [collect_external_calls, he1, he2, he3, he4]
    rfl
  have htbb : collect_try_blocks search_fn =
      .ok (tb.map fun r => ⟨r.file, r.line⟩) := by
    simp only [collect_try_blocks, htb]
    rfl
  refine ⟨⟨addDefs "class " r2 (addDefs "def " r1 []), us,
           buildUnused (addDefs "class " r2 (addDefs "def " r1 [])) us,
           e1 ++ e2 ++ e3 ++ e4, tb.map (fun r => ⟨r.file, r.line⟩),
           collect_expensive_ops fs⟩, ?_⟩
  simp only [collect_signals, hdefs, except_ok_bind, hcu, hec, htbb]

/-- C1 (witness for the amended theorem): a search function that always
succeeds yields a report. -/
theorem c1_witness :
    (∀ q, ∃ rs, searchNoHits q = .ok rs) ∧
      ∃ r, collect_signals searchNoHits ([] : FileSys) = .ok r :=
  ⟨fun _ => ⟨[], rfl⟩, c1_amended searchNoHits [] (fun _ => ⟨[], rfl⟩)⟩

/-! ### Claim C2: loop signal for a call inside a multi-line loop body -/

/-- C2 (counterexample): for `model.fit(x, y)` in the body of a `for` loop
whose header sits on the previous physical line, the emitted entry has
`inside_loop = false`, not `true` — the signal is substring presence on the
same line only. -/
theorem c2_counterexample :
    (collect_expensive_ops fsLoopFit).map
        (fun o => (o.method, o.signals.inside_loop, o.signals.async_context)) =
      [("fit", false, false)] := by
  rfl

/-- C2 (amended): on that subtree `collect_expensive_ops` emits exactly one
entry, for the `model.fit(x, y)` line, with `method = "fit"` and both
signals false: the loop-construct keyword on the earlier physical line is
not seen by the same-line substring test. -/
theorem c2_amended :
    collect_expensive_ops fsLoopFit =
      [⟨"train.py", 2, "fit", ⟨false, false⟩⟩] := by
  rfl

/-! ### Claim C7: the `read_file` access check -/

/-- C7 (counterexample): with workspace root `/ws`, the argument
`../ws2/secret.txt` resolves to `/ws2/secret.txt` — outside the workspace
root — yet `read_file` passes the string-prefix access check and returns
the file content instead of failing with AccessDenied. -/
theorem c7_counterexample :
    read_file rwFs "/ws" "../ws2/secret.txt" = .ok "data" ∧
      resolvesInsideRoot (resolvePath (pathJoin "/ws" "../ws2/secret.txt")) "/ws"
        = false := by
  exact ⟨rfl, rfl⟩

/-- C7 (amended): `read_file` fails with AccessDenied exactly on the string
test the code performs — whenever the resolved path's string does not start
with the workspace-root string.  Because that test is only a string prefix,
a path resolving outside the root whose string begins with the root string
(a sibling such as `/ws2` under root `/ws`) passes the access check. -/
theorem c7_amended (fs : WorkFS) (root path : String)
    (h : strStartsWith (resolvePath (pathJoin root path)) root = false) :
    read_file fs root path = .error .accessDenied := by
  simp [read_file, h]

/-- C7 (witness): `../../etc/passwd` under root `/ws` resolves to
`/etc/passwd`, fails the prefix test, and is denied. -/
theorem c7_witness :
    strStartsWith (resolvePath (pathJoin "/ws" "../../etc/passwd")) "/ws" = false ∧
      read_file rwFs "/ws" "../../etc/passwd" = .error .accessDenied :=
  ⟨by decide, c7_amended rwFs "/ws" "../../etc/passwd" (by decide)⟩

/-! ### Claim C8: the `summarize_project` return value -/

/-- C8 (code bug): `summarize_project` never returns its structured mapping.
After computing the first four fields it executes
`entry_points = find_entry_points()`, calling the async tool function with
neither `await` nor its required `ctx` parameter, which raises `TypeError`
on every invocation. -/
theorem c8_bug (ws : Workspace) :
    summarize_project ws = .error summarizeTypeError := by
  rfl

/-! ### Claim C9: the definition/usage scenario of the spec -/

/-- C9: on a subtree with exactly `def foo():` at `a.py:1` and a call
`foo()` only at `b.py:5`, `collect_signals` (over the repository's
`search_code`) yields `definitions = ⟨foo ↦ a.py:1⟩`,
`usages = ⟨foo ↦ [b.py]⟩` and `unused = []`: the definition's own match is
excluded by line-number equality and the `b.py` hit is attributed as a
usage. -/
theorem c9_foo_usage :
    collect_signals (fun q => search_code fsFooDef q) fsFooDef =
      .ok ⟨[("foo", ⟨"a.py", 1⟩)], [("foo", ["b.py"])], [], [], [], []⟩ := by
  rfl

/-! ### Helper lemmas for the orchestration loop -/

/-- The loop makes at most `fuel` reasoning-service calls. -/
theorem queryLoop_calls_le {α : Type} (llm : List ToolSchema → List Message → LLMMsg)
    (jl : String → Except String α) (ct : String → α → Except String String)
    (schemas : List ToolSchema) :
    ∀ (fuel : Nat) (msgs : List Message),
      (queryLoop llm jl ct schemas msgs fuel).2 ≤ fuel := by
  intro fuel
  induction fuel with
  | zero => intro msgs; simp [queryLoop]
  | succ n ih =>
      intro msgs
      simp only [queryLoop]
      by_cases hc : (llm schemas msgs).tool_calls = []
      · simp [hc]
      · simp only [if_neg hc]
        cases hd : dispatchCalls jl ct (llm schemas msgs).tool_calls with
        | error e => simp
        | ok toolMsgs =>
            simp only []
            exact Nat.succ_le_succ (ih _)

/-- When the argument parser always succeeds, the dispatch loop always
succeeds. -/
theorem dispatchCalls_total {α : Type} (jl : String → Except String α)
    (ct : String → α → Except String String)
    (hjl : ∀ s, ∃ v, jl s = .ok v) :
    ∀ calls : List ToolCall, ∃ ms, dispatchCalls jl ct calls = .ok ms := by
  intro calls
  induction calls with
  | nil => exact ⟨[], rfl⟩
  | cons c rest ih =>
      obtain ⟨v, hv⟩ := hjl c.arguments
      obtain ⟨ms, hms⟩ := ih
      exact ⟨_, by simp only [dispatchCalls, hv, hms, except_ok_bind]; rfl⟩

/-- When the service never answers directly and arguments always parse, the
loop runs its whole budget and returns the canned step-limit response. -/
theorem queryLoop_exhausts {α : Type} (llm : List ToolSchema → List Message → LLMMsg)
    (jl : String → Except String α) (ct : String → α → Except String String)
    (schemas : List ToolSchema)
    (hllm : ∀ s m, (llm s m).tool_calls ≠ [])
    (hjl : ∀ s, ∃ v, jl s = .ok v) :
    ∀ (fuel : Nat) (msgs : List Message),
      (queryLoop llm jl ct schemas msgs fuel).1 = .ok stepLimitAnswer := by
  intro fuel
  induction fuel with
  | zero => intro msgs; rfl
  | succ n ih =>
      intro msgs
      obtain ⟨toolMsgs, hd⟩ := dispatchCalls_total jl ct hjl (llm schemas msgs).tool_calls
      simp only [queryLoop, if_neg (hllm schemas msgs), hd]
      exact ih _

/-! ### Claim C3: the step budget -/

/-- C3: every run of `query` issues at most 20 reasoning-service calls, and
if the service never produces a direct answer (and the arguments of its
requested invocations parse, so no error cuts the run short) the budget is
exhausted and the fixed could-not-complete response is returned. -/
theorem c3_step_budget {α : Type} (registry : List MCPTool)
    (llm : List ToolSchema → List Message → LLMMsg)
    (jl : String → Except String α) (ct : String → α → Except String String)
    (question : String) :
    (query registry llm jl ct question).2 ≤ 20 ∧
      ((∀ s m, (llm s m).tool_calls ≠ []) → (∀ s, ∃ v, jl s = .ok v) →
        (query registry llm jl ct question).1 = .ok stepLimitAnswer) :=
  ⟨queryLoop_calls_le llm jl ct (advertisedTools registry) MAX_STEPS _,
   fun hllm hjl =>
     queryLoop_exhausts llm jl ct (advertisedTools registry) hllm hjl MAX_STEPS _⟩

/-- C3 (witness): a service that always requests the same tool call drives
`query` to the step-limit response within 20 calls. -/
theorem c3_witness :
    (query ([] : List MCPTool) llmAlwaysCalls jlOkUnit ctOk "hello").2 ≤ 20 ∧
      (query ([] : List MCPTool) llmAlwaysCalls jlOkUnit ctOk "hello").1 =
        .ok stepLimitAnswer :=
  ⟨(c3_step_budget [] llmAlwaysCalls jlOkUnit ctOk "hello").1,
   (c3_step_budget [] llmAlwaysCalls jlOkUnit ctOk "hello").2
     (fun _ _ => List.cons_ne_nil _ _) (fun _ => ⟨(), rfl⟩)⟩

/-! ### Claim C4: the advertised tool list never contains "query" -/

/-- C4: for every Tool Registry contents, the advertised tool list `query`
builds (and passes unchanged to the reasoning service at every step) does
not contain the orchestration tool's own name. -/
theorem c4_self_exclusion (registry : List MCPTool) :
    (advertisedTools registry).all (fun s => !(s.name = "query")) = true := by
  rw [List.all_eq_true]
  intro s hs
  rw [advertisedTools, List.mem_map] at hs
  obtain ⟨t, ht, rfl⟩ := hs
  have := (List.mem_filter.mp ht).2
  simpa using this

/-- C4 (witness): on a registry holding the orchestration tool itself and
one ordinary tool, the advertised list excludes `query`. -/
theorem c4_witness :
    (advertisedTools registryBoth).all (fun s => !(s.name = "query")) = true :=
  c4_self_exclusion registryBoth

/-! ### Claim C5: a raising tool handler does not terminate the loop -/

/-- C5: if the requested invocation's handler raises (while its argument
string parses), the loop does not stop: the exception is captured as the
textual `Error calling tool ...` message, appended as a tool-role message
correlated to the invocation id, and the loop continues on the augmented
conversation with the remaining budget (making one more reasoning call than
that continuation). -/
theorem c5_error_containment {α : Type}
    (llm : List ToolSchema → List Message → LLMMsg)
    (jl : String → Except String α) (ct : String → α → Except String String)
    (schemas : List ToolSchema) (msgs : List Message) (fuel : Nat)
    (c : ToolCall) (a : α) (e : String)
    (hc : (llm schemas msgs).tool_calls = [c])
    (hjl : jl c.arguments = .ok a)
    (hct : ct c.name a = .error e) :
    queryLoop llm jl ct schemas msgs (fuel + 1) =
      (let next := queryLoop llm jl ct schemas
          (msgs ++ [⟨Role.assistant, (llm schemas msgs).content, none, [c]⟩,
                    ⟨Role.tool, some (errText c.name e), some c.id, []⟩]) fuel
       (next.1, next.2 + 1)) := by
  have hd : dispatchCalls jl ct [c] =
      .ok [⟨Role.tool, some (errText c.name e), some c.id, []⟩] := by
    simp only [dispatchCalls, hjl, hct, except_ok_bind]
  simp [queryLoop, hc, hd]

/-- C5 (witness): a handler that raises `boom` on the first step leaves the
loop running on the conversation holding the error text. -/
theorem c5_witness :
    queryLoop llmAlwaysCalls jlOkUnit ctBoom [] [] (2 + 1) =
      (let next := queryLoop llmAlwaysCalls jlOkUnit ctBoom []
          ([] ++ [⟨Role.assistant, (llmAlwaysCalls [] []).content, none,
                   [⟨"1", "project_tree", "\x7b\x7d"⟩]⟩,
                  ⟨Role.tool, some (errText "project_tree" "boom"),
                   some "1", []⟩]) 2
       (next.1, next.2 + 1)) :=
  c5_error_containment llmAlwaysCalls jlOkUnit ctBoom [] [] 2
    ⟨"1", "project_tree", "\x7b\x7d"⟩ () "boom" rfl rfl rfl

/-! ### Claim C6: are all tool-level errors contained? -/

/-- C6 (counterexample): a requested invocation whose argument string is not
JSON makes `query` raise the parse error to its caller — `json.loads` runs
outside the `try/except` that guards the tool call, so this tool-level
error is not turned into tool-result content. -/
theorem c6_counterexample :
    (query ([] : List MCPTool) llmBadArgs jlStrict ctOk "list files").1 =
      .error "Expecting value: line 1 column 1 (char 0)" := by
  rfl

/-- C6 (amended): a tool-level error raised inside the tool handler is
contained in its step (see the error-containment theorem for C5), but an
argument string that fails to parse is not: the parse failure propagates
out of the loop to the caller of `query` after the single reasoning call of
that step. -/
theorem c6_amended {α : Type}
    (llm : List ToolSchema → List Message → LLMMsg)
    (jl : String → Except String α) (ct : String → α → Except String String)
    (schemas : List ToolSchema) (msgs : List Message) (fuel : Nat)
    (c : ToolCall) (e : String)
    (hc : (llm schemas msgs).tool_calls = [c])
    (hjl : jl c.arguments = .error e) :
    queryLoop llm jl ct schemas msgs (fuel + 1) = (.error e, 1) := by
  have hd : dispatchCalls jl ct [c] = .error e := by
    simp only [dispatchCalls, hjl, except_error_bind]
  simp [queryLoop, hc, hd]

/-- C6 (witness for the amended theorem): the non-JSON argument string stops
a concrete run with the parse error after one reasoning call. -/
theorem c6_witness :
    queryLoop llmBadArgs jlStrict ctOk [] [] (3 + 1) =
      (.error "Expecting value: line 1 column 1 (char 0)", 1) :=
  c6_amended llmBadArgs jlStrict ctOk [] [] 3
    ⟨"call_1", "read_file", "not json"⟩
    "Expecting value: line 1 column 1 (char 0)" rfl rfl

/-! ### Helper lemmas for the report invariant (C10) -/

theorem except_bind_ok {ε α β : Type} {x : Except ε α} {f : α → Except ε β}
    {b : β} (h : (x >>= f) = .ok b) : ∃ a, x = .ok a ∧ f a = .ok b := by
  cases x with
  | error e => exact absurd h (by simp [except_error_bind])
  | ok a => exact ⟨a, rfl, by rwa [except_ok_bind] at h⟩

theorem lookup_some_mem {β : Type} {k : String} {v : β} :
    ∀ {l : List (String × β)}, List.lookup k l = some v → (k, v) ∈ l := by
  intro l
  induction l with
  | nil => intro h; simp [List.lookup] at h
  | cons p rest ih =>
      intro h
      obtain ⟨pk, pv⟩ := p
      by_cases hk : k = pk
      · subst hk
        simp [List.lookup] at h
        subst h
        exact List.mem_cons_self _ _
      · have hb : (k == pk) = false := beq_eq_false_iff_ne.mpr hk
        simp [List.lookup, hb] at h
        exact List.mem_cons_of_mem _ (ih h)

theorem nodup_mem_lookup {β : Type} {k : String} {v : β} :
    ∀ {l : List (String × β)}, (l.map Prod.fst).Nodup → (k, v) ∈ l →
      List.lookup k l = some v := by
  intro l
  induction l with
  | nil => intro _ h; simp at h
  | cons p rest ih =>
      intro hnd hm
      obtain ⟨pk, pv⟩ := p
      rw [List.map_cons, List.nodup_cons] at hnd
      rcases List.mem_cons.mp hm with heq | htail
      · obtain ⟨h1, h2⟩ := Prod.mk.injEq .. ▸ heq
        subst h1; subst h2
        simp [List.lookup]
      · have hk : ¬ k = pk := by
          intro he
          subst he
          exact hnd.1 (List.mem_map.mpr ⟨(k, v), htail, rfl⟩)
        have hb : (k == pk) = false := beq_eq_false_iff_ne.mpr hk
        simp only [List.lookup, hb]
        exact ih hnd.2 htail

theorem dictInsert_keys_nodup {β : Type} (k : String) (v : β)
    {d : List (String × β)} (hnd : (d.map Prod.fst).Nodup) :
    ((dictInsert d k v).map Prod.fst).Nodup := by
  unfold dictInsert
  split
  · rw [List.map_map]
    have hcomp : (Prod.fst ∘ fun p : String × β => if p.1 = k then (k, v) else p)
        = Prod.fst := by
      funext p
      by_cases h : p.1 = k <;> simp [h]
    rw [hcomp]
    exact hnd
  · rename_i hany
    rw [List.map_append, List.map_cons, List.map_nil]
    rw [List.nodup_append]
    refine ⟨hnd, List.nodup_singleton k, ?_⟩
    intro a ha hb
    rw [List.mem_singleton] at hb
    subst hb
    obtain ⟨p, hp, hpk⟩ := List.mem_map.mp ha
    exact hany (List.any_eq_true.mpr ⟨p, hp, by simp [hpk]⟩)

theorem addDefs_cons (kw : String) (r : SearchHit) (rest : List SearchHit)
    (d : List (String × Defn)) :
    addDefs kw (r :: rest) d =
      addDefs kw rest
        (if is_third_party r.file then d
         else
           match extractName kw r.snippet with
           | some name => dictInsert d name ⟨r.file, r.line⟩
           | none => d) := by
  simp [addDefs]

theorem addDefs_keys_nodup (kw : String) :
    ∀ (rs : List SearchHit) (d : List (String × Defn)),
      (d.map Prod.fst).Nodup → ((addDefs kw rs d).map Prod.fst).Nodup := by
  intro rs
  induction rs with
  | nil => intro d h; simpa [addDefs] using h
  | cons r rest ih =>
      intro d h
      rw [addDefs_cons]
      apply ih
      cases hb : is_third_party r.file
      · cases hx : extractName kw r.snippet with
        | none => simpa [hb, hx] using h
        | some name =>
            simp only [hb, Bool.false_eq_true, if_false, hx]
            exact dictInsert_keys_nodup name _ h
      · simpa [hb] using h

theorem collect_definitions_nodup (sf : String → Except String (List SearchHit))
    (defs : List (String × Defn)) (h : collect_definitions sf = .ok defs) :
    (defs.map Prod.fst).Nodup := by
  simp only [collect_definitions] at h
  obtain ⟨r1, h1, h⟩ := except_bind_ok h
  obtain ⟨r2, h2, h⟩ := except_bind_ok h
  injection h with h
  subst h
  exact addDefs_keys_nodup _ _ _ (addDefs_keys_nodup _ _ _ (by simp))

theorem usagesLoop_keys (sf : String → Except String (List SearchHit)) :
    ∀ (defs : List (String × Defn)) (us : List (String × List String)),
      usagesLoop sf defs = .ok us → us.map Prod.fst = defs.map Prod.fst := by
  intro defs
  induction defs with
  | nil =>
      intro us h
      simp only [usagesLoop] at h
      injection h with h
      subst h
      rfl
  | cons p rest ih =>
      intro us h
      obtain ⟨name, d⟩ := p
      simp only [usagesLoop] at h
      obtain ⟨rs, hrs, h⟩ := except_bind_ok h
      obtain ⟨tail, htail, h⟩ := except_bind_ok h
      injection h with h
      subst h
      simp [ih tail htail]

theorem collect_usages_ok (sf : String → Except String (List SearchHit))
    (defs : List (String × Defn)) (us : List (String × List String))
    (unu : List Unused) (h : collect_usages sf defs = .ok (us, unu)) :
    usagesLoop sf defs = .ok us ∧ unu = buildUnused defs us := by
  simp only [collect_usages] at h
  obtain ⟨us', hus, h⟩ := except_bind_ok h
  injection h with h
  rw [Prod.mk.injEq] at h
  obtain ⟨h1, h2⟩ := h
  subst h1
  exact ⟨hus, h2.symm⟩

/-! ### Claim C10: the definitions/usages/unused invariant -/

/-- C10: in every report `collect_signals` produces, the key list of the
usages map equals the key list of the definitions map (every discovered
symbol has a usage entry, possibly empty), and the unused list holds
exactly the symbols whose usage list is empty, each paired with its
recorded definition. -/
theorem c10_report_invariant (sf : String → Except String (List SearchHit))
    (fs : FileSys) (r : SignalReport) (sym : String) (d : Defn)
    (h : collect_signals sf fs = .ok r) :
    r.usages.map Prod.fst = r.definitions.map Prod.fst ∧
      (Unused.mk sym d ∈ r.unused ↔
        ((sym, ([] : List String)) ∈ r.usages ∧ (sym, d) ∈ r.definitions)) := by
  simp only [collect_signals] at h
  obtain ⟨defs, hdefs, h⟩ := except_bind_ok h
  obtain ⟨pr, hcu, h⟩ := except_bind_ok h
  obtain ⟨us, unu⟩ := pr
  obtain ⟨ext, hext, h⟩ := except_bind_ok h
  obtain ⟨tbs, htbs, h⟩ := except_bind_ok h
  injection h with h
  subst h
  obtain ⟨hus, hunu⟩ := collect_usages_ok sf defs us unu hcu
  subst hunu
  have hkeys := usagesLoop_keys sf defs us hus
  have hnd : (defs.map Prod.fst).Nodup := collect_definitions_nodup sf defs hdefs
  refine ⟨hkeys, ?_, ?_⟩
  · intro hmem
    simp only [buildUnused] at hmem
    obtain ⟨p, hp, hfm⟩ := List.mem_filterMap.mp hmem
    cases hlk : List.lookup p.1 defs with
    | none => rw [hlk] at hfm; simp at hfm
    | some d' =>
        rw [hlk] at hfm
        simp at hfm
        obtain ⟨hp1, hp2⟩ := hfm
        obtain ⟨hpu, hpe⟩ := List.mem_filter.mp hp
        have hp2' : p.2 = ([] : List String) := by simpa using hpe
        have hpeq : p = (sym, ([] : List String)) := by
          rw [Prod.ext_iff]
          exact ⟨hp1, hp2'⟩
        rw [hp1, hp2] at hlk
        exact ⟨hpeq ▸ hpu, lookup_some_mem hlk⟩
  · rintro ⟨hmemus, hmemdefs⟩
    have hlk : List.lookup sym defs = some d := nodup_mem_lookup hnd hmemdefs
    simp only [buildUnused]
    refine List.mem_filterMap.mpr ⟨(sym, []), ?_, ?_⟩
    · exact List.mem_filter.mpr ⟨hmemus, by simp⟩
    · simp [hlk]

/-- C10 (witness): on the `def bar():` subtree, the report's usages key list
matches its definitions key list and its unused list holds exactly the
unused `bar` with its definition site. -/
theorem c10_witness :
    reportBar.usages.map Prod.fst = reportBar.definitions.map Prod.fst ∧
      (Unused.mk "bar" ⟨"a.py", 3⟩ ∈ reportBar.unused ↔
        (("bar", ([] : List String)) ∈ reportBar.usages ∧
          ("bar", (⟨"a.py", 3⟩ : Defn)) ∈ reportBar.definitions)) :=
  c10_report_invariant (fun q => search_code fsBarUnused q) fsBarUnused
    reportBar "bar" ⟨"a.py", 3⟩ (by rfl)

end PDA
